import Mathlib

/-!
# crud: customers service and HTTP handlers

A shallow embedding of `pkg/customers/service.go` and `cmd/app/server.go`.

* The data-access methods of `Service` are functions from a `Store` (the
  state behind `pgxpool.Pool`) to a Go-style result together with the store
  after the statement.
* The handlers of `Server` are functions from the store and the request input
  (the `{id}` path variable, or the request body) to the `Response` that was
  written, together with the store after the call.
* Calls to `log` are not modelled: they have no effect on results.
-/

set_option autoImplicit false

namespace Crud

/-! ## Data model -/

/-- Go `time.Time`, as seconds relative to the Unix epoch (UTC). -/
structure Time where
  unix : Int
  deriving DecidableEq, Repr

/-- The zero value of `time.Time`: January 1, year 1, 00:00:00 UTC. -/
def Time.zero : Time := ⟨-62135596800⟩

/-- Go `Time.IsZero`. -/
def Time.IsZero (t : Time) : Bool := t.unix == Time.zero.unix

/-- Go `type Customer struct` of `service.go`. -/
structure Customer where
  ID : Int
  Name : String
  Phone : String
  Active : Bool
  Created : Time
  deriving DecidableEq, Repr

/-- Errors of the pgx driver: the sentinel `pgx.ErrNoRows`, or any other
failure (connectivity, constraint violation, ...), carried with its text. -/
inductive PgxError where
  | ErrNoRows
  | other (msg : String)
  deriving DecidableEq, Repr

/-- Go `error` values that the methods of `Service` can return: the two
package sentinels `ErrNotFound` and `ErrInternal`, or an error of the driver
handed on as it is. -/
inductive GoError where
  | ErrNotFound
  | ErrInternal
  | driver (e : PgxError)
  deriving DecidableEq, Repr

deriving instance DecidableEq for Except

/-- Go `errors.Is(err, target)` on these unwrapped error values. -/
def errorsIs (err target : GoError) : Bool := err == target

/-- Outcome of a Go call that can end in a run-time fault on a nil pointer. -/
inductive Outcome (α : Type) where
  | returned (a : α)
  | nilDereference
  deriving DecidableEq, Repr

/-- Go `[]*Customer`: `none` is the nil slice, `some xs` a non-nil slice. -/
abbrev Slice := Option (List Customer)

/-- Go `append(s, item)`: appending to the nil slice allocates. -/
def Slice.append (s : Slice) (item : Customer) : Slice :=
  match s with
  | none => some [item]
  | some xs => some (xs ++ [item])

/-- The elements of a slice; the nil slice has none. -/
def Slice.items (s : Slice) : List Customer :=
  match s with
  | none => []
  | some xs => xs

/-! ## The store behind the pool -/

/-- A failure after `Query` has returned without error, while its rows are
read: the connection breaks once `n` rows were delivered, so that
`rows.Next()` reports false and the error is only in `rows.Err()`; or the
value in column `column` of row `n` cannot be decoded, so that `rows.Scan`
returns an error for that row. -/
inductive StreamFault where
  | breaksAfter (n : Nat)
  | scanFailsAt (n : Nat) (column : Fin 5)
  deriving DecidableEq, Repr

/-- One turn of the loop `for rows.Next()`: the item as `rows.Scan` left it,
and the error that `rows.Scan` returned. -/
structure Scanned where
  item : Customer
  err : Option PgxError
  deriving DecidableEq, Repr

/-- The outcome of `rows.Scan` on a row that decodes: the item is the row. -/
def Scanned.clean (r : Customer) : Scanned := { item := r, err := none }

/-- The outcome of `rows.Scan(&item.ID, &item.Name, &item.Phone, &item.Active,
&item.Created)` into a fresh zero `Customer` when column `column` of the row
cannot be decoded: the destinations before that column are filled, the others
keep their zero values, and the error is returned. -/
def Scanned.failedAt (r : Customer) (column : Fin 5) : Scanned :=
  { item :=
      { ID := if 0 < column.val then r.ID else 0,
        Name := if 1 < column.val then r.Name else "",
        Phone := if 2 < column.val then r.Phone else "",
        Active := if 3 < column.val then r.Active else false,
        Created := if 4 < column.val then r.Created else Time.zero },
    err := some (.other "can't scan into dest") }

/-- The turns that the loop `for rows.Next()` makes over the rows `result` of
a `Query`. Without a failure every row is delivered and decodes. When the
connection breaks after `n` rows, `rows.Next()` reports false from then on.
When row `n` cannot be decoded, its `rows.Scan` fails; pgx closes the rows on
that error, so that it is the last turn. -/
def rowStream (result : List Customer) (f : Option StreamFault) : List Scanned :=
  match f with
  | none => result.map Scanned.clean
  | some (.breaksAfter n) => (result.take n).map Scanned.clean
  | some (.scanFailsAt n column) =>
    match result.drop n with
    | [] => result.map Scanned.clean
    | r :: _ => (result.take n).map Scanned.clean ++ [Scanned.failedAt r column]

/-- Largest `int64`. -/
def maxInt64 : Int := 2 ^ 63 - 1

/-- Modelled from the spec: the `customers` table and its schema, which the
repository does not contain. Section 6: one table whose columns correspond
1:1 to the entity fields, `id` the auto-assigned primary key, `created`
defaulted at insert time; section 3: `active` defaults to true at creation.
`rows` are the rows in store order, `seq` the last value handed out by the
id sequence, `now` the store clock in seconds since the Unix epoch,
`fault`, when set, a failure of the connection that makes every statement
fail with that driver error, and `streamFault`, when set, a failure that
strikes while the rows of a `Query` result are being read. -/
structure Store where
  rows : List Customer
  seq : Nat
  now : Nat
  fault : Option String
  streamFault : Option StreamFault
  deriving DecidableEq, Repr

/-- The primary-key constraint on `id`: no two rows share an id. -/
def Store.PrimaryKey (s : Store) : Prop := (s.rows.map Customer.ID).Nodup

instance (s : Store) : Decidable s.PrimaryKey := by
  unfold Store.PrimaryKey; infer_instance

/-- Outcome of `QueryRow(...).Scan(...)` on the rows a statement returned:
the first row, or `pgx.ErrNoRows` when there is none. -/
def scanFirst (returned : List Customer) : Except PgxError Customer :=
  match returned with
  | [] => .error .ErrNoRows
  | r :: _ => .ok r

/-- `SELECT * FROM customers WHERE id=$1` through `QueryRow.Scan`. -/
def Store.selectByID (s : Store) (id : Int) : Except PgxError Customer × Store :=
  match s.fault with
  | some msg => (.error (.other msg), s)
  | none => (scanFirst (s.rows.filter (fun r => r.ID == id)), s)

/-- `SELECT * FROM customers` through `Query`: the error of `Query`, or the
turns of the loop over its rows. -/
def Store.selectAll (s : Store) : Except PgxError (List Scanned) × Store :=
  match s.fault with
  | some msg => (.error (.other msg), s)
  | none => (.ok (rowStream s.rows s.streamFault), s)

/-- `SELECT * FROM customers WHERE active = TRUE` through `Query`: the error
of `Query`, or the turns of the loop over its rows. -/
def Store.selectActive (s : Store) : Except PgxError (List Scanned) × Store :=
  match s.fault with
  | some msg => (.error (.other msg), s)
  | none => (.ok (rowStream (s.rows.filter (fun r => r.Active)) s.streamFault), s)

/-- `UPDATE customers SET active=$2 WHERE id=$1 RETURNING *` through
`QueryRow.Scan`. -/
def Store.updateActive (s : Store) (id : Int) (active : Bool) :
    Except PgxError Customer × Store :=
  match s.fault with
  | some msg => (.error (.other msg), s)
  | none =>
    let rows := s.rows.map (fun r => if r.ID == id then { r with Active := active } else r)
    (scanFirst (rows.filter (fun r => r.ID == id)), { s with rows := rows })

/-- `DELETE FROM customers WHERE id=$1 RETURNING *` through `QueryRow.Scan`. -/
def Store.deleteByID (s : Store) (id : Int) : Except PgxError Customer × Store :=
  match s.fault with
  | some msg => (.error (.other msg), s)
  | none =>
    (scanFirst (s.rows.filter (fun r => r.ID == id)),
     { s with rows := s.rows.filter (fun r => !(r.ID == id)) })

/-- `INSERT INTO customers(name, phone) VALUES ($1, $2) RETURNING *` through
`QueryRow.Scan`: the id is the next value of the sequence, `active` and
`created` take their defaults. The sequence moves on even when the insert is
then refused by the primary key; it fails once past the `int64` range. -/
def Store.insert (s : Store) (name phone : String) : Except PgxError Customer × Store :=
  match s.fault with
  | some msg => (.error (.other msg), s)
  | none =>
    let id : Int := (s.seq : Int) + 1
    if maxInt64 < id then
      (.error (.other "nextval: reached maximum value of sequence"), s)
    else if s.rows.any (fun r => r.ID == id) then
      (.error (.other "duplicate key value violates unique constraint"),
       { s with seq := s.seq + 1 })
    else
      let row : Customer :=
        { ID := id, Name := name, Phone := phone, Active := true, Created := ⟨(s.now : Int)⟩ }
      (scanFirst [row], { s with rows := s.rows ++ [row], seq := s.seq + 1 })

/-- `UPDATE customers SET name=$1, phone=$2 WHERE id=$3 RETURNING *` through
`QueryRow.Scan`. -/
def Store.updateNamePhone (s : Store) (name phone : String) (id : Int) :
    Except PgxError Customer × Store :=
  match s.fault with
  | some msg => (.error (.other msg), s)
  | none =>
    let rows :=
      s.rows.map (fun r => if r.ID == id then { r with Name := name, Phone := phone } else r)
    (scanFirst (rows.filter (fun r => r.ID == id)), { s with rows := rows })

/-! ## `Service` (pkg/customers/service.go) -/

/-- Go `Service.ByID`. -/
def ByID (s : Store) (id : Int) : Except GoError Customer × Store :=
  match s.selectByID id with
  | (.error .ErrNoRows, s1) => (.error .ErrNotFound, s1)
  | (.error _, s1) => (.error .ErrInternal, s1)
  | (.ok item, s1) => (.ok item, s1)

/-- The `for rows.Next()` loop of `All` and `AllActive`: in every turn the row
is scanned into a fresh item, an error of `rows.Scan` is only logged, and the
item is appended to the named result `customers` in either case. The loop
ends when `rows.Next()` reports false; `rows.Err()` is never read. -/
def scanRows (rows : List Scanned) (customers : Slice) : Slice :=
  match rows with
  | [] => customers
  | row :: rest =>
    match row.err with
    | some _ => scanRows rest (customers.append row.item)
    | none => scanRows rest (customers.append row.item)

/-- Go `Service.All`. The named result `customers` starts as the nil slice;
an error of `Query` is returned as it is, and after the loop the result is
returned with a nil error whatever happened while the rows were read. -/
def All (s : Store) : Except GoError Slice × Store :=
  match s.selectAll with
  | (.error err, s1) => (.error (.driver err), s1)
  | (.ok rows, s1) => (.ok (scanRows rows none), s1)

/-- Go `Service.AllActive`. -/
def AllActive (s : Store) : Except GoError Slice × Store :=
  match s.selectActive with
  | (.error err, s1) => (.error (.driver err), s1)
  | (.ok rows, s1) => (.ok (scanRows rows none), s1)

/-- Go `Service.ChangeActive`. -/
def ChangeActive (s : Store) (id : Int) (active : Bool) : Except GoError Customer × Store :=
  match s.updateActive id active with
  | (.error .ErrNoRows, s1) => (.error .ErrNotFound, s1)
  | (.error _, s1) => (.error .ErrInternal, s1)
  | (.ok item, s1) => (.ok item, s1)

/-- Go `Service.Delete`. -/
def Delete (s : Store) (id : Int) : Except GoError Customer × Store :=
  match s.deleteByID id with
  | (.error .ErrNoRows, s1) => (.error .ErrNotFound, s1)
  | (.error _, s1) => (.error .ErrInternal, s1)
  | (.ok item, s1) => (.ok item, s1)

/-- Go `Service.Save`. The argument is a `*Customer`: `none` is the nil
pointer, and reading `customer.ID` through it faults. -/
def Save (s : Store) (customer : Option Customer) :
    Outcome (Except GoError Customer × Store) :=
  match customer with
  | none => .nilDereference
  | some c =>
    let r := if c.ID == 0 then s.insert c.Name c.Phone
             else s.updateNamePhone c.Name c.Phone c.ID
    match r with
    | (.error _, s1) => .returned (.error .ErrInternal, s1)
    | (.ok item, s1) => .returned (.ok item, s1)

/-! ## `strconv.ParseInt(s, 10, 64)` -/

/-- The `Err` field of Go `*strconv.NumError`. -/
inductive NumError where
  | ErrSyntax
  | ErrRange
  deriving DecidableEq, Repr

/-- Largest `uint64`. -/
def maxUint64 : Nat := 2 ^ 64 - 1

/-- The digit loop of Go `strconv.ParseUint` for base 10 and bit size 64,
returning Go's pair of value and error. A byte that is no decimal digit is a
syntax error; a value that leaves the `uint64` range is a range error with
the value `maxUint64`. -/
def parseUintLoop (cs : List Char) (n : Nat) : Nat × Option NumError :=
  match cs with
  | [] => (n, none)
  | c :: rest =>
    if '0' ≤ c ∧ c ≤ '9' then
      let d := c.toNat - '0'.toNat
      if n ≥ maxUint64 / 10 + 1 then (maxUint64, some .ErrRange)
      else
        let n1 := n * 10 + d
        if n1 > maxUint64 then (maxUint64, some .ErrRange)
        else parseUintLoop rest n1
    else (0, some .ErrSyntax)

/-- Go `strconv.ParseUint(s, 10, 64)`. -/
def ParseUint (cs : List Char) : Nat × Option NumError :=
  match cs with
  | [] => (0, some .ErrSyntax)
  | _ => parseUintLoop cs 0

/-- Go `strconv.ParseInt(s, 10, 64)`. -/
def ParseInt (s : String) : Except NumError Int :=
  match s.toList with
  | [] => .error .ErrSyntax
  | c :: rest =>
    let neg := c == '-'
    let digits := if c == '+' ∨ c == '-' then rest else c :: rest
    match ParseUint digits with
    | (_, some .ErrSyntax) => .error .ErrSyntax
    | (un, _) =>
      let cutoff : Nat := 2 ^ 63
      if !neg ∧ un ≥ cutoff then .error .ErrRange
      else if neg ∧ un > cutoff then .error .ErrRange
      else .ok (if neg then -(un : Int) else (un : Int))

/-! ## `Server` (cmd/app/server.go) -/

/-- A JSON document, as the value tree that `json.Marshal` renders. The leaf
`time` stands for the JSON string holding the RFC 3339 text of an instant. -/
inductive Json where
  | null
  | bool (b : Bool)
  | num (n : Int)
  | str (s : String)
  | time (t : Time)
  | arr (items : List Json)
  | obj (fields : List (String × Json))

/-- Go `Time.MarshalJSON` accepts only years in `[0, 9999]`. -/
def Time.yearInRange (t : Time) : Bool :=
  decide (-62167219200 ≤ t.unix) && decide (t.unix < 253402300800)

/-- Go `json.Marshal` of a `Customer` value, by its field tags. -/
def marshalCustomer (c : Customer) : Except String Json :=
  if c.Created.yearInRange then
    .ok (.obj [("id", .num c.ID), ("name", .str c.Name), ("phone", .str c.Phone),
               ("active", .bool c.Active), ("created", .time c.Created)])
  else .error "Time.MarshalJSON: year outside of range [0,9999]"

/-- Go `json.Marshal` of the elements of a `[]*Customer`, in order. -/
def marshalItems (xs : List Customer) : Except String (List Json) :=
  match xs with
  | [] => .ok []
  | x :: rest =>
    match marshalCustomer x with
    | .error e => .error e
    | .ok j =>
      match marshalItems rest with
      | .error e => .error e
      | .ok js => .ok (j :: js)

/-- The two kinds of value that the handlers pass to `jsonResponse` as
`data interface{}`: a `*Customer` or a `[]*Customer`. -/
inductive Data where
  | ptr (p : Option Customer)
  | slice (s : Slice)

/-- Go `json.Marshal(data)`: a nil pointer and a nil slice both encode as
`null`, a non-nil slice as an array. -/
def Marshal (data : Data) : Except String Json :=
  match data with
  | .ptr none => .ok .null
  | .ptr (some c) => marshalCustomer c
  | .slice none => .ok .null
  | .slice (some xs) =>
    match marshalItems xs with
    | .error e => .error e
    | .ok js => .ok (.arr js)

/-- What a handler wrote as the response body: the text line given to
`http.Error`, or a JSON document. -/
inductive ResponseBody where
  | text (line : String)
  | json (doc : Json)

/-- The response a handler wrote to its `http.ResponseWriter`. -/
structure Response where
  status : Nat
  contentType : String
  body : ResponseBody

/-- Go `http.StatusText` on the status codes that `server.go` uses. -/
def StatusText (code : Nat) : String :=
  if code = 200 then "OK"
  else if code = 400 then "Bad Request"
  else if code = 404 then "Not Found"
  else if code = 500 then "Internal Server Error"
  else ""

/-- Go `http.Error(w, msg, code)`. -/
def httpError (msg : String) (code : Nat) : Response :=
  { status := code, contentType := "text/plain; charset=utf-8", body := .text msg }

/-- Go `errorWriter` of `server.go`: the error itself is only logged. -/
def errorWriter (httpSts : Nat) : Response :=
  httpError (StatusText httpSts) httpSts

/-- Go `jsonResponse` of `server.go`: `writer.Write` without a preceding
`WriteHeader` sends status 200. -/
def jsonResponse (data : Data) : Response :=
  match Marshal data with
  | .error _ => errorWriter 500
  | .ok item => { status := 200, contentType := "application/json", body := .json item }

/-- Go `Server.handleGetCustomerById`; `idParam` is `mux.Vars(request)["id"]`. -/
def handleGetCustomerById (s : Store) (idParam : String) : Response × Store :=
  match ParseInt idParam with
  | .error _ => (errorWriter 400, s)
  | .ok id =>
    match ByID s id with
    | (.error err, s1) =>
      if errorsIs err .ErrNotFound then (errorWriter 404, s1)
      else (errorWriter 500, s1)
    | (.ok item, s1) => (jsonResponse (.ptr (some item)), s1)

/-- Go `Server.handleGetAllCustomers`. -/
def handleGetAllCustomers (s : Store) : Response × Store :=
  match All s with
  | (.error _, s1) => (errorWriter 500, s1)
  | (.ok items, s1) => (jsonResponse (.slice items), s1)

/-- Go `Server.handleGetAllActiveCustomers`. -/
def handleGetAllActiveCustomers (s : Store) : Response × Store :=
  match AllActive s with
  | (.error _, s1) => (errorWriter 500, s1)
  | (.ok items, s1) => (jsonResponse (.slice items), s1)

/-- Go `Server.handleBlockByID`. -/
def handleBlockByID (s : Store) (idP : String) : Response × Store :=
  match ParseInt idP with
  | .error _ => (errorWriter 400, s)
  | .ok id =>
    match ChangeActive s id false with
    | (.error err, s1) =>
      if errorsIs err .ErrNotFound then (errorWriter 404, s1)
      else (errorWriter 500, s1)
    | (.ok item, s1) => (jsonResponse (.ptr (some item)), s1)

/-- Go `Server.handleUnBlockByID`. -/
def handleUnBlockByID (s : Store) (idP : String) : Response × Store :=
  match ParseInt idP with
  | .error _ => (errorWriter 400, s)
  | .ok id =>
    match ChangeActive s id true with
    | (.error err, s1) =>
      if errorsIs err .ErrNotFound then (errorWriter 404, s1)
      else (errorWriter 500, s1)
    | (.ok item, s1) => (jsonResponse (.ptr (some item)), s1)

/-- Go `Server.handleDelete`. -/
def handleDelete (s : Store) (idP : String) : Response × Store :=
  match ParseInt idP with
  | .error _ => (errorWriter 400, s)
  | .ok id =>
    match Delete s id with
    | (.error err, s1) =>
      if errorsIs err .ErrNotFound then (errorWriter 404, s1)
      else (errorWriter 500, s1)
    | (.ok item, s1) => (jsonResponse (.ptr (some item)), s1)

/-- The request body of `POST /customers`, by what
`json.NewDecoder(r.Body).Decode(&item)` makes of it for `var item *Customer`:
text that is no JSON document or has the wrong shape, the JSON literal
`null`, or a JSON object that decodes to the customer `c`. -/
inductive RequestBody where
  | malformed (why : String)
  | null
  | object (c : Customer)
  deriving DecidableEq, Repr

/-- Go `json.NewDecoder(r.Body).Decode(&item)`: the error, or the pointer
stored in `item`. The literal `null` is decoded without error by setting the
pointer to nil; an object is decoded into a freshly allocated `Customer`. -/
def Decode (body : RequestBody) : Except String (Option Customer) :=
  match body with
  | .malformed why => .error why
  | .null => .ok none
  | .object c => .ok (some c)

/-- Go `Server.handleSave`. -/
def handleSave (s : Store) (body : RequestBody) : Outcome (Response × Store) :=
  match Decode body with
  | .error _ => .returned (errorWriter 400, s)
  | .ok item =>
    match Save s item with
    | .nilDereference => .nilDereference
    | .returned (.error _, s1) => .returned (errorWriter 500, s1)
    | .returned (.ok customer, s1) => .returned (jsonResponse (.ptr (some customer)), s1)

/-! ## Concrete stores and payloads -/

/-- A reachable store with no rows. -/
def emptyStore : Store :=
  { rows := [], seq := 0, now := 1700000000, fault := none, streamFault := none }

/-- The customer that the first insert of `Ann` into `emptyStore` creates. -/
def ann : Customer :=
  { ID := 1, Name := "Ann", Phone := "555-0100", Active := true, Created := ⟨1700000000⟩ }

/-- A blocked customer. -/
def bob : Customer :=
  { ID := 2, Name := "Bob", Phone := "555-0101", Active := false, Created := ⟨1700000050⟩ }

/-- A reachable store with an active and a blocked customer. -/
def demoStore : Store :=
  { rows := [ann, bob], seq := 2, now := 1700000100, fault := none, streamFault := none }

/-- A reachable store whose only customer is blocked. -/
def blockedOnlyStore : Store :=
  { rows := [bob], seq := 2, now := 1700000100, fault := none, streamFault := none }

/-- The store `demoStore` behind a connection that is down. -/
def downStore : Store := { demoStore with fault := some "connection refused" }

/-- A store with a blocked and an active customer, behind a connection that
breaks after the first row of every `Query` result. -/
def cutStore : Store :=
  { rows := [bob, ann], seq := 2, now := 1700000100, fault := none,
    streamFault := some (.breaksAfter 1) }

/-- A store with one active customer whose `active` column (the fourth) cannot
be decoded when the row is read. -/
def garbledStore : Store :=
  { rows := [ann], seq := 1, now := 1700000100, fault := none,
    streamFault := some (.scanFailsAt 0 3) }

/-- What `rows.Scan` leaves of `ann` in `garbledStore`: Active and Created
keep their zero values. -/
def annGarbled : Customer :=
  { ID := 1, Name := "Ann", Phone := "555-0100", Active := false, Created := Time.zero }

/-- A create payload: a body that gives only the name and the phone, so that
the other fields keep their zero values. -/
def annPayload : Customer :=
  { ID := 0, Name := "Ann", Phone := "555-0100", Active := false, Created := Time.zero }

/-- An update payload for an id that `demoStore` does not hold. -/
def ghostPayload : Customer :=
  { ID := 7, Name := "Eve", Phone := "555-0107", Active := false, Created := Time.zero }

/-! ## Lemmas on the table statements -/

theorem filter_id_absent (rows : List Customer) (id : Int)
    (h : ∀ r ∈ rows, r.ID ≠ id) : rows.filter (fun r => r.ID == id) = [] := by
  rw [List.filter_eq_nil_iff]
  intro r hr
  simpa using h r hr

theorem filter_other_absent (rows : List Customer) (id : Int)
    (h : ∀ r ∈ rows, r.ID ≠ id) : rows.filter (fun r => !(r.ID == id)) = rows := by
  rw [List.filter_eq_self]
  intro r hr
  simpa using h r hr

theorem map_update_absent (rows : List Customer) (id : Int) (f : Customer → Customer)
    (h : ∀ r ∈ rows, r.ID ≠ id) :
    rows.map (fun r => if r.ID == id then f r else r) = rows := by
  have hid : rows.map (fun r => if r.ID == id then f r else r) = rows.map (fun r => r) := by
    apply List.map_congr_left
    intro r hr
    have hne : r.ID ≠ id := h r hr
    simp [hne]
  rw [hid]
  exact List.map_id rows

theorem selectByID_absent (s : Store) (id : Int)
    (hconn : s.fault = none) (habs : ∀ r ∈ s.rows, r.ID ≠ id) :
    s.selectByID id = (.error .ErrNoRows, s) := by
  unfold Store.selectByID
  rw [hconn, filter_id_absent s.rows id habs]
  rfl

theorem updateActive_absent (s : Store) (id : Int) (active : Bool)
    (hconn : s.fault = none) (habs : ∀ r ∈ s.rows, r.ID ≠ id) :
    s.updateActive id active = (.error .ErrNoRows, s) := by
  obtain ⟨rows, seq, now, fault, sf⟩ := s
  subst hconn
  show (scanFirst ((rows.map _).filter _), _) = _
  rw [map_update_absent rows id _ habs, filter_id_absent rows id habs]
  rfl

theorem deleteByID_absent (s : Store) (id : Int)
    (hconn : s.fault = none) (habs : ∀ r ∈ s.rows, r.ID ≠ id) :
    s.deleteByID id = (.error .ErrNoRows, s) := by
  obtain ⟨rows, seq, now, fault, sf⟩ := s
  subst hconn
  show (scanFirst (rows.filter _), Store.mk (rows.filter _) _ _ _ _) = _
  rw [filter_other_absent rows id habs, filter_id_absent rows id habs]
  rfl

theorem filter_id_of_mem (rows : List Customer) (c : Customer)
    (hpk : (rows.map Customer.ID).Nodup) (hc : c ∈ rows) :
    rows.filter (fun r => r.ID == c.ID) = [c] := by
  induction rows with
  | nil => cases hc
  | cons a rest ih =>
    rw [List.map_cons, List.nodup_cons] at hpk
    obtain ⟨hnot, hrest⟩ := hpk
    rcases List.mem_cons.mp hc with hca | hcr
    · subst hca
      have habs : ∀ r ∈ rest, r.ID ≠ c.ID := by
        intro r hr heq
        exact hnot (heq ▸ List.mem_map_of_mem Customer.ID hr)
      rw [List.filter_cons_of_pos (by simp), filter_id_absent rest c.ID habs]
    · have hne : a.ID ≠ c.ID := by
        intro heq
        exact hnot (heq ▸ List.mem_map_of_mem Customer.ID hcr)
      rw [List.filter_cons_of_neg (by simpa using hne)]
      exact ih hrest hcr

theorem filter_map_update (rows : List Customer) (id : Int) (f : Customer → Customer)
    (hf : ∀ r, (f r).ID = r.ID) :
    (rows.map (fun r => if r.ID == id then f r else r)).filter (fun r => r.ID == id)
      = (rows.filter (fun r => r.ID == id)).map f := by
  induction rows with
  | nil => rfl
  | cons a rest ih =>
    by_cases ha : a.ID = id
    · have h2 : (a.ID == id) = true := by simp [ha]
      have h3 : ((f a).ID == id) = true := by simp [ha, hf]
      simp only [List.map_cons, List.filter_cons, h2, h3, if_true, ih]
    · have h2 : (a.ID == id) = false := by simp [ha]
      simp only [List.map_cons, List.filter_cons, h2, Bool.false_eq_true, if_false, ih]

theorem map_update_twice (rows : List Customer) (id : Int) (a b : Bool) :
    (rows.map (fun r => if r.ID == id then { r with Active := a } else r)).map
        (fun r => if r.ID == id then { r with Active := b } else r)
      = rows.map (fun r => if r.ID == id then { r with Active := b } else r) := by
  rw [List.map_map]
  apply List.map_congr_left
  intro r _
  by_cases h : r.ID = id <;> simp [h]

theorem scanRows_items (rows : List Scanned) (acc : Slice) :
    (scanRows rows acc).items = acc.items ++ rows.map Scanned.item := by
  induction rows generalizing acc with
  | nil => simp [scanRows]
  | cons a rest ih =>
    have hstep : scanRows (a :: rest) acc = scanRows rest (acc.append a.item) := by
      rw [scanRows]
      cases a.err <;> rfl
    rw [hstep, ih]
    cases acc <;> simp [Slice.append, Slice.items]

theorem rowStream_whole (result : List Customer) :
    (rowStream result none).map Scanned.item = result := by
  show (result.map Scanned.clean).map Scanned.item = result
  rw [List.map_map]
  exact List.map_id result

/-! ## Lemmas on `ParseInt` -/

/-- The digit loop ends in an error when the text holds a character that is
no decimal digit. -/
theorem parseUintLoop_nondigit (cs : List Char) (n : Nat)
    (h : ∃ c ∈ cs, ¬ ('0' ≤ c ∧ c ≤ '9')) : (parseUintLoop cs n).2 ≠ none := by
  induction cs generalizing n with
  | nil => obtain ⟨c, hc, _⟩ := h; cases hc
  | cons a rest ih =>
    unfold parseUintLoop
    by_cases ha : '0' ≤ a ∧ a ≤ '9'
    · have hrest : ∃ c ∈ rest, ¬ ('0' ≤ c ∧ c ≤ '9') := by
        obtain ⟨c, hc, hnd⟩ := h
        rcases List.mem_cons.mp hc with hca | hcr
        · exact absurd (hca ▸ ha) hnd
        · exact ⟨c, hcr, hnd⟩
      rw [if_pos ha]
      simp only []
      split
      · simp
      · split
        · simp
        · exact ih _ hrest
    · rw [if_neg ha]
      simp

/-- A range error of the digit loop comes with the value `maxUint64`. -/
theorem parseUintLoop_range_value (cs : List Char) (n un : Nat)
    (h : parseUintLoop cs n = (un, some .ErrRange)) : un = maxUint64 := by
  induction cs generalizing n with
  | nil => simp [parseUintLoop] at h
  | cons a rest ih =>
    unfold parseUintLoop at h
    split at h
    · simp only [] at h
      split at h
      · simp only [Prod.mk.injEq] at h
        exact h.1.symm
      · split at h
        · simp only [Prod.mk.injEq] at h
          exact h.1.symm
        · exact ih _ h
    · simp at h

/-- Text with a character that is no decimal digit, after an optional sign,
is rejected by `ParseInt`. -/
theorem ParseInt_nondigit (s : String) (c : Char) (rest : List Char)
    (hs : s.toList = c :: rest)
    (h : ∃ d ∈ (if c == '+' ∨ c == '-' then rest else c :: rest), ¬ ('0' ≤ d ∧ d ≤ '9')) :
    ∃ e, ParseInt s = .error e := by
  unfold ParseInt
  rw [hs]
  simp only []
  have hloop : ∀ cs : List Char, (∃ d ∈ cs, ¬ ('0' ≤ d ∧ d ≤ '9')) →
      (ParseUint cs).2 ≠ none := by
    intro cs hcs
    cases cs with
    | nil => simp [ParseUint]
    | cons a as => exact parseUintLoop_nondigit (a :: as) 0 hcs
  have hne := hloop _ h
  rcases hpu : ParseUint (if c == '+' ∨ c == '-' then rest else c :: rest) with ⟨un, err⟩
  rw [hpu] at hne
  cases err with
  | none => exact absurd rfl hne
  | some e =>
    cases e with
    | ErrSyntax => exact ⟨.ErrSyntax, rfl⟩
    | ErrRange =>
      have hun : un = maxUint64 := by
        cases hd : (if c == '+' ∨ c == '-' then rest else c :: rest) with
        | nil => rw [hd] at hpu; simp [ParseUint] at hpu
        | cons a as =>
          rw [hd] at hpu
          exact parseUintLoop_range_value (a :: as) 0 un hpu
      subst hun
      refine ⟨.ErrRange, ?_⟩
      by_cases hneg : c = '-' <;> simp [hneg, maxUint64]

/-- `ParseInt` on the three kinds of text that are no `int64`, and on the two
ends of the `int64` range. -/
theorem ParseInt_examples :
    ParseInt "" = .error .ErrSyntax ∧
    ParseInt "abc" = .error .ErrSyntax ∧
    ParseInt "-" = .error .ErrSyntax ∧
    ParseInt "1.5" = .error .ErrSyntax ∧
    ParseInt "9223372036854775808" = .error .ErrRange ∧
    ParseInt "-9223372036854775809" = .error .ErrRange ∧
    ParseInt "9223372036854775807" = .ok 9223372036854775807 ∧
    ParseInt "-9223372036854775808" = .ok (-9223372036854775808) ∧
    ParseInt "+42" = .ok 42 :=
  ⟨rfl, rfl, rfl, rfl, rfl, rfl, rfl, rfl, rfl⟩

/-! ## Not found, bad request -/

/-- C1 (service part as well as handler part): on a store that executes the
statement, for an id that matches no row, `ByID`, `ChangeActive` (for either
value of `active`) and `Delete` return `ErrNotFound` and no customer, leaving
the store as it was, and the four handlers given a path segment that parses
to that id respond with status 404 and the text `Not Found`. -/
theorem absent_id_not_found (s : Store) (id : Int) (active : Bool) (idParam : String)
    (hconn : s.fault = none) (habs : ∀ r ∈ s.rows, r.ID ≠ id)
    (hparse : ParseInt idParam = .ok id) :
    ByID s id = (.error .ErrNotFound, s) ∧
    ChangeActive s id active = (.error .ErrNotFound, s) ∧
    Delete s id = (.error .ErrNotFound, s) ∧
    handleGetCustomerById s idParam = (httpError "Not Found" 404, s) ∧
    handleBlockByID s idParam = (httpError "Not Found" 404, s) ∧
    handleUnBlockByID s idParam = (httpError "Not Found" 404, s) ∧
    handleDelete s idParam = (httpError "Not Found" 404, s) ∧
    (httpError "Not Found" 404).status = 404 := by
  have hby : ByID s id = (.error .ErrNotFound, s) := by
    unfold ByID
    rw [selectByID_absent s id hconn habs]
  have hch : ∀ a, ChangeActive s id a = (.error .ErrNotFound, s) := by
    intro a
    unfold ChangeActive
    rw [updateActive_absent s id a hconn habs]
  have hdel : Delete s id = (.error .ErrNotFound, s) := by
    unfold Delete
    rw [deleteByID_absent s id hconn habs]
  refine ⟨hby, hch active, hdel, ?_, ?_, ?_, ?_, rfl⟩
  · simp [handleGetCustomerById, hparse, hby, errorsIs, errorWriter, StatusText]
  · simp [handleBlockByID, hparse, hch false, errorsIs, errorWriter, StatusText]
  · simp [handleUnBlockByID, hparse, hch true, errorsIs, errorWriter, StatusText]
  · simp [handleDelete, hparse, hdel, errorsIs, errorWriter, StatusText]

/-- C2: for a path segment that `ParseInt` rejects, each of the four handlers
responds with status 400 and the text `Bad Request`, and the store is the one
it was given: no data-access operation ran. -/
theorem bad_id_bad_request (s : Store) (idParam : String) (e : NumError)
    (hparse : ParseInt idParam = .error e) :
    handleGetCustomerById s idParam = (httpError "Bad Request" 400, s) ∧
    handleBlockByID s idParam = (httpError "Bad Request" 400, s) ∧
    handleUnBlockByID s idParam = (httpError "Bad Request" 400, s) ∧
    handleDelete s idParam = (httpError "Bad Request" 400, s) ∧
    (httpError "Bad Request" 400).status = 400 := by
  refine ⟨?_, ?_, ?_, ?_, rfl⟩
  · simp [handleGetCustomerById, hparse, errorWriter, StatusText]
  · simp [handleBlockByID, hparse, errorWriter, StatusText]
  · simp [handleUnBlockByID, hparse, errorWriter, StatusText]
  · simp [handleDelete, hparse, errorWriter, StatusText]

/-! ## Save, Delete, ChangeActive, All -/

/-- C3: when `Save` is given a payload with ID 0 and the insert succeeds, the
returned customer has a non-zero ID, the payload's Name and Phone, Active
true and a Created that is not the zero time, and `ByID` with the returned ID
on the resulting store returns that same customer. -/
theorem save_insert_then_byID (s s1 : Store) (p c : Customer) (hid : p.ID = 0)
    (hok : Save s (some p) = .returned (.ok c, s1)) :
    c.ID ≠ 0 ∧ c.Name = p.Name ∧ c.Phone = p.Phone ∧ c.Active = true ∧
    c.Created.IsZero = false ∧ ByID s1 c.ID = (.ok c, s1) := by
  obtain ⟨rows, seq, now, fault, sf⟩ := s
  simp only [Save, hid, beq_self_eq_true, if_true, Store.insert] at hok
  cases fault with
  | some msg => simp at hok
  | none =>
    by_cases hmax : maxInt64 < (seq : Int) + 1
    · simp [hmax] at hok
    · by_cases hdup : (rows.any (fun r => r.ID == (seq : Int) + 1)) = true
      · simp only [hmax, hdup, if_true, if_false] at hok
        simp at hok
      · simp only [hmax, hdup, if_false, scanFirst, Bool.false_eq_true] at hok
        simp only [Outcome.returned.injEq, Prod.mk.injEq, Except.ok.injEq] at hok
        obtain ⟨hc, hs⟩ := hok
        subst hc
        subst hs
        have habs : ∀ r ∈ rows, r.ID ≠ (seq : Int) + 1 := by
          intro r hr heq
          apply hdup
          rw [List.any_eq_true]
          exact ⟨r, hr, by simp [heq]⟩
        refine ⟨?_, rfl, rfl, rfl, ?_, ?_⟩
        · show (seq : Int) + 1 ≠ 0
          omega
        · show ((now : Int) == -62135596800) = false
          have hne : (now : Int) ≠ -62135596800 := by omega
          simp [hne]
        · show ByID _ ((seq : Int) + 1) = _
          unfold ByID Store.selectByID
          simp only []
          rw [List.filter_append, filter_id_absent rows _ habs]
          rw [List.filter_cons_of_pos (by simp)]
          rfl

/-- C4: on a store that executes the statement and keeps the primary key,
for an id present in it as row `c`, `Delete` returns `c` without error, the
resulting store holds the other rows as they were (in order) and no row with
that id, and `ByID` on it returns `ErrNotFound`. -/
theorem delete_present (s : Store) (id : Int) (c : Customer)
    (hconn : s.fault = none) (hpk : s.PrimaryKey) (hc : c ∈ s.rows) (hid : c.ID = id) :
    Delete s id = (.ok c, { s with rows := s.rows.filter (fun r => !(r.ID == id)) }) ∧
    (∀ r, r.ID ≠ id → (r ∈ (Delete s id).2.rows ↔ r ∈ s.rows)) ∧
    (∀ r ∈ (Delete s id).2.rows, r.ID ≠ id) ∧
    ByID (Delete s id).2 id = (.error .ErrNotFound, (Delete s id).2) := by
  subst hid
  have hdel : Delete s c.ID
      = (.ok c, { s with rows := s.rows.filter (fun r => !(r.ID == c.ID)) }) := by
    unfold Delete Store.deleteByID
    rw [hconn]
    simp only []
    rw [filter_id_of_mem s.rows c hpk hc]
    rfl
  have hgone : ∀ r ∈ s.rows.filter (fun r => !(r.ID == c.ID)), r.ID ≠ c.ID := by
    intro r hr
    simpa using (List.mem_filter.mp hr).2
  have hby : ByID { s with rows := s.rows.filter (fun r => !(r.ID == c.ID)) } c.ID
      = (.error .ErrNotFound, { s with rows := s.rows.filter (fun r => !(r.ID == c.ID)) }) := by
    unfold ByID
    rw [selectByID_absent { s with rows := s.rows.filter (fun r => !(r.ID == c.ID)) } c.ID
      hconn hgone]
  rw [hdel]
  refine ⟨rfl, ?_, hgone, hby⟩
  intro r hne
  show r ∈ s.rows.filter (fun r => !(r.ID == c.ID)) ↔ r ∈ s.rows
  rw [List.mem_filter]
  simp [hne]

/-- When nothing fails while the rows are read, the customers of `AllActive`
are exactly the customers of `All` whose Active is true, in the same order. -/
theorem allActive_eq_active_of_all_whole (s s1 s2 : Store) (xs ys : Slice)
    (hstream : s.streamFault = none)
    (hall : All s = (.ok xs, s1)) (hact : AllActive s = (.ok ys, s2)) :
    (∀ c, c ∈ ys.items ↔ (c ∈ xs.items ∧ c.Active = true)) ∧
    ys.items = xs.items.filter (fun c => c.Active) := by
  have hlist : ys.items = xs.items.filter (fun c => c.Active) := by
    unfold All Store.selectAll at hall
    unfold AllActive Store.selectActive at hact
    cases hf : s.fault with
    | some msg => rw [hf] at hall; simp at hall
    | none =>
      rw [hf, hstream] at hall hact
      simp only [Prod.mk.injEq, Except.ok.injEq] at hall hact
      rw [← hall.1, ← hact.1, scanRows_items, scanRows_items, rowStream_whole,
        rowStream_whole]
      simp [Slice.items]
  refine ⟨?_, hlist⟩
  intro c
  rw [hlist, List.mem_filter]

/-- C7: for a payload with a non-zero ID that matches no row, `Save` returns
`ErrInternal`, which is not `ErrNotFound`, and leaves the store as it was, and
`handleSave` responds with status 500 and the text `Internal Server Error`. -/
theorem save_update_absent_internal (s : Store) (p : Customer)
    (hid : p.ID ≠ 0) (habs : ∀ r ∈ s.rows, r.ID ≠ p.ID) :
    Save s (some p) = .returned (.error .ErrInternal, s) ∧
    GoError.ErrInternal ≠ GoError.ErrNotFound ∧
    handleSave s (.object p) = .returned (httpError "Internal Server Error" 500, s) ∧
    (httpError "Internal Server Error" 500).status = 500 := by
  have hupd : ∃ e, s.updateNamePhone p.Name p.Phone p.ID = (.error e, s) := by
    obtain ⟨rows, seq, now, fault, sf⟩ := s
    cases fault with
    | some msg => exact ⟨.other msg, rfl⟩
    | none =>
      refine ⟨.ErrNoRows, ?_⟩
      show (scanFirst ((rows.map _).filter _), Store.mk (rows.map _) _ _ _ _) = _
      rw [map_update_absent rows p.ID _ habs, filter_id_absent rows p.ID habs]
      rfl
  obtain ⟨e, he⟩ := hupd
  have hne : (p.ID == 0) = false := by simpa using hid
  have hsave : Save s (some p) = .returned (.error .ErrInternal, s) := by
    simp only [Save, hne, Bool.false_eq_true, if_false, he]
  refine ⟨hsave, by decide, ?_, rfl⟩
  simp only [handleSave, Decode, hsave, errorWriter, StatusText]
  rfl

/-- C8: on a store that executes the statement and keeps the primary key,
for an id present in it as row `c`, `ChangeActive(id, false)` followed by
`ChangeActive(id, true)` returns without error a customer with Active true
and the ID, Name, Phone and Created of `c`; in the resulting store the row
of that id has Active true and every other row is as it was. -/
theorem block_then_unblock (s : Store) (id : Int) (c : Customer)
    (hconn : s.fault = none) (hpk : s.PrimaryKey) (hc : c ∈ s.rows) (hid : c.ID = id) :
    (ChangeActive s id false).1 = .ok { c with Active := false } ∧
    ChangeActive (ChangeActive s id false).2 id true
      = (.ok { ID := c.ID, Name := c.Name, Phone := c.Phone, Active := true,
               Created := c.Created },
         { s with rows :=
             s.rows.map (fun r => if r.ID == id then { r with Active := true } else r) }) ∧
    (∀ r, r.ID ≠ id →
      (r ∈ (ChangeActive (ChangeActive s id false).2 id true).2.rows ↔ r ∈ s.rows)) := by
  subst hid
  obtain ⟨rows, seq, now, fault, sf⟩ := s
  simp only at hconn hc
  subst hconn
  have hpk1 : (rows.map Customer.ID).Nodup := hpk
  have hfst : ChangeActive ⟨rows, seq, now, none, sf⟩ c.ID false
      = (.ok { c with Active := false },
         ⟨rows.map (fun r => if r.ID == c.ID then { r with Active := false } else r),
          seq, now, none, sf⟩) := by
    unfold ChangeActive Store.updateActive
    simp only []
    rw [filter_map_update rows c.ID (fun r => { r with Active := false }) (fun _ => rfl),
      filter_id_of_mem rows c hpk1 hc]
    rfl
  have hsnd : ChangeActive
        ⟨rows.map (fun r => if r.ID == c.ID then { r with Active := false } else r),
          seq, now, none, sf⟩ c.ID true
      = (.ok { c with Active := true },
         ⟨rows.map (fun r => if r.ID == c.ID then { r with Active := true } else r),
          seq, now, none, sf⟩) := by
    unfold ChangeActive Store.updateActive
    simp only []
    rw [map_update_twice,
      filter_map_update rows c.ID (fun r => { r with Active := true }) (fun _ => rfl),
      filter_id_of_mem rows c hpk1 hc]
    rfl
  refine ⟨by rw [hfst], by rw [hfst]; exact hsnd, ?_⟩
  intro r hne
  rw [hfst]
  show r ∈ (ChangeActive _ c.ID true).2.rows ↔ r ∈ rows
  rw [hsnd]
  show r ∈ rows.map (fun r => if r.ID == c.ID then { r with Active := true } else r) ↔ r ∈ rows
  rw [List.mem_map]
  constructor
  · rintro ⟨a, ha, hra⟩
    by_cases hac : a.ID = c.ID
    · exfalso
      apply hne
      rw [← hra]
      simp [hac]
    · have : r = a := by rw [← hra]; simp [hac]
      exact this ▸ ha
  · intro hr
    exact ⟨r, hr, by simp [hne]⟩

/-! ## Where the code departs from the specification -/

/-- The single-row operations only ever return the two package sentinels. -/
theorem single_row_errors_are_sentinels (s s1 : Store) (id : Int) (active : Bool)
    (p : Customer) (e : GoError) :
    (ByID s id = (.error e, s1) → e = .ErrNotFound ∨ e = .ErrInternal) ∧
    (ChangeActive s id active = (.error e, s1) → e = .ErrNotFound ∨ e = .ErrInternal) ∧
    (Delete s id = (.error e, s1) → e = .ErrNotFound ∨ e = .ErrInternal) ∧
    (Save s (some p) = .returned (.error e, s1) → e = .ErrInternal) := by
  refine ⟨?_, ?_, ?_, ?_⟩
  · intro h
    unfold ByID at h
    split at h <;> simp at h <;> simp [← h.1]
  · intro h
    unfold ChangeActive at h
    split at h <;> simp at h <;> simp [← h.1]
  · intro h
    unfold Delete at h
    split at h <;> simp at h <;> simp [← h.1]
  · intro h
    unfold Save at h
    simp only [] at h
    split at h <;> simp at h
    simp [← h.1]

/-- C5: `All` and `AllActive` both return without error and yet `AllActive`
is not the active part of `All`. When the connection breaks after the first
row of a result, `All` returns only `bob` and `AllActive` only `ann`, who is
not among the customers of `All`. When the `active` column of a row cannot be
decoded, both return the half-filled item, so `AllActive` returns a customer
whose Active is false and who is no row of the table. -/
theorem allActive_not_active_of_all :
    All cutStore = (.ok (some [bob]), cutStore) ∧
    AllActive cutStore = (.ok (some [ann]), cutStore) ∧
    ann ∈ Slice.items (some [ann]) ∧ ann ∉ Slice.items (some [bob]) ∧
    All garbledStore = (.ok (some [annGarbled]), garbledStore) ∧
    AllActive garbledStore = (.ok (some [annGarbled]), garbledStore) ∧
    annGarbled ∈ Slice.items (some [annGarbled]) ∧ annGarbled.Active = false ∧
    annGarbled ∉ garbledStore.rows := by
  refine ⟨rfl, rfl, by decide, by decide, rfl, rfl, by decide, rfl, by decide⟩

/-- C6: on a table with zero rows `handleGetAllCustomers` responds with status
200 and the JSON document `null`, and so does `handleGetAllActiveCustomers`
on a table with zero active rows; `null` is not the empty array. -/
theorem empty_result_body_is_null :
    handleGetAllCustomers emptyStore
      = ({ status := 200, contentType := "application/json", body := .json .null },
         emptyStore) ∧
    handleGetAllActiveCustomers blockedOnlyStore
      = ({ status := 200, contentType := "application/json", body := .json .null },
         blockedOnlyStore) ∧
    Json.null ≠ Json.arr [] := by
  refine ⟨rfl, rfl, ?_⟩
  intro h
  cases h

/-- C9: when the connection is down, `All` and `AllActive` return the error
of the driver as it is, which is neither `ErrNotFound` nor `ErrInternal`,
while `ByID` on the same store returns `ErrInternal`. -/
theorem all_returns_raw_driver_error :
    All downStore = (.error (.driver (.other "connection refused")), downStore) ∧
    AllActive downStore = (.error (.driver (.other "connection refused")), downStore) ∧
    GoError.driver (.other "connection refused") ≠ GoError.ErrNotFound ∧
    GoError.driver (.other "connection refused") ≠ GoError.ErrInternal ∧
    ByID downStore 1 = (.error .ErrInternal, downStore) := by
  refine ⟨rfl, rfl, ?_, ?_, rfl⟩
  · intro h
    cases h
  · intro h
    cases h

/-- C10: the body `null` is decoded without error into the nil pointer, and
`handleSave` hands it to `Save`, whose read of `customer.ID` faults: no
response is produced. -/
theorem handleSave_null_body_faults :
    Decode .null = .ok none ∧
    Save emptyStore none = .nilDereference ∧
    handleSave emptyStore .null = .nilDereference ∧
    ∀ r, handleSave emptyStore .null ≠ .returned r := by
  refine ⟨rfl, rfl, rfl, ?_⟩
  intro r h
  have h2 : (Outcome.nilDereference : Outcome (Response × Store)) = .returned r := h
  cases h2

/-! ## The theorems at concrete inputs -/

theorem absent_id_not_found_witness :
    demoStore.fault = none ∧ (∀ r ∈ demoStore.rows, r.ID ≠ 7) ∧ ParseInt "7" = .ok 7 ∧
    (ByID demoStore 7 = (.error .ErrNotFound, demoStore) ∧
     ChangeActive demoStore 7 true = (.error .ErrNotFound, demoStore) ∧
     Delete demoStore 7 = (.error .ErrNotFound, demoStore) ∧
     handleGetCustomerById demoStore "7" = (httpError "Not Found" 404, demoStore) ∧
     handleBlockByID demoStore "7" = (httpError "Not Found" 404, demoStore) ∧
     handleUnBlockByID demoStore "7" = (httpError "Not Found" 404, demoStore) ∧
     handleDelete demoStore "7" = (httpError "Not Found" 404, demoStore) ∧
     (httpError "Not Found" 404).status = 404) :=
  ⟨rfl, by decide, rfl, absent_id_not_found demoStore 7 true "7" rfl (by decide) rfl⟩

theorem bad_id_bad_request_witness :
    ParseInt "12a" = .error .ErrSyntax ∧
    (handleGetCustomerById demoStore "12a" = (httpError "Bad Request" 400, demoStore) ∧
     handleBlockByID demoStore "12a" = (httpError "Bad Request" 400, demoStore) ∧
     handleUnBlockByID demoStore "12a" = (httpError "Bad Request" 400, demoStore) ∧
     handleDelete demoStore "12a" = (httpError "Bad Request" 400, demoStore) ∧
     (httpError "Bad Request" 400).status = 400) :=
  ⟨rfl, bad_id_bad_request demoStore "12a" .ErrSyntax rfl⟩

theorem save_insert_then_byID_witness :
    annPayload.ID = 0 ∧
    Save emptyStore (some annPayload) = .returned (.ok ann, { emptyStore with rows := [ann], seq := 1 }) ∧
    (ann.ID ≠ 0 ∧ ann.Name = annPayload.Name ∧ ann.Phone = annPayload.Phone ∧
     ann.Active = true ∧ ann.Created.IsZero = false ∧
     ByID { emptyStore with rows := [ann], seq := 1 } ann.ID
       = (.ok ann, { emptyStore with rows := [ann], seq := 1 })) :=
  ⟨rfl, rfl,
   save_insert_then_byID emptyStore { emptyStore with rows := [ann], seq := 1 }
     annPayload ann rfl rfl⟩

theorem delete_present_witness :
    demoStore.fault = none ∧ demoStore.PrimaryKey ∧ bob ∈ demoStore.rows ∧ bob.ID = 2 ∧
    (Delete demoStore 2
       = (.ok bob, { demoStore with rows := demoStore.rows.filter (fun r => !(r.ID == 2)) }) ∧
     (∀ r, r.ID ≠ 2 → (r ∈ (Delete demoStore 2).2.rows ↔ r ∈ demoStore.rows)) ∧
     (∀ r ∈ (Delete demoStore 2).2.rows, r.ID ≠ 2) ∧
     ByID (Delete demoStore 2).2 2 = (.error .ErrNotFound, (Delete demoStore 2).2)) :=
  ⟨rfl, by decide, by decide, rfl,
   delete_present demoStore 2 bob rfl (by decide) (by decide) rfl⟩

theorem save_update_absent_internal_witness :
    ghostPayload.ID ≠ 0 ∧ (∀ r ∈ demoStore.rows, r.ID ≠ ghostPayload.ID) ∧
    (Save demoStore (some ghostPayload) = .returned (.error .ErrInternal, demoStore) ∧
     GoError.ErrInternal ≠ GoError.ErrNotFound ∧
     handleSave demoStore (.object ghostPayload)
       = .returned (httpError "Internal Server Error" 500, demoStore) ∧
     (httpError "Internal Server Error" 500).status = 500) :=
  ⟨by decide, by decide,
   save_update_absent_internal demoStore ghostPayload (by decide) (by decide)⟩

theorem block_then_unblock_witness :
    demoStore.fault = none ∧ demoStore.PrimaryKey ∧ bob ∈ demoStore.rows ∧ bob.ID = 2 ∧
    ((ChangeActive demoStore 2 false).1 = .ok { bob with Active := false } ∧
     ChangeActive (ChangeActive demoStore 2 false).2 2 true
       = (.ok { ID := bob.ID, Name := bob.Name, Phone := bob.Phone, Active := true,
                Created := bob.Created },
          { demoStore with rows :=
              demoStore.rows.map (fun r => if r.ID == 2 then { r with Active := true } else r) }) ∧
     (∀ r, r.ID ≠ 2 →
       (r ∈ (ChangeActive (ChangeActive demoStore 2 false).2 2 true).2.rows
         ↔ r ∈ demoStore.rows))) :=
  ⟨rfl, by decide, by decide, rfl,
   block_then_unblock demoStore 2 bob rfl (by decide) (by decide) rfl⟩

end Crud
